import Mathlib

/-!
Shallow embedding of the reconciliation core of
`docker-traefik-cloudflare-gompanion` (Go, package `main`).

The embedding covers the rule/label parsers, the mapping merge
(`addToMappings`), the synchronization engine (`SyncMappings` /
`pointDomain`), the startup snapshot scan (`GetInitialMappings` and the
surrounding `main` control flow), and the docker event watcher's cursor
and reconnect behaviour (`RunDockerEventWatch`).

Modelling conventions:
* Go strings are Lean `String`s; the parsers work on `List Char`
  (a Go string's bytes are ASCII in every rule the parsers touch).
* Go `int` is Lean `Int`.
* The Cloudflare REST client is an oracle (`CloudflareEnv`) whose three
  methods may succeed or fail; the engine records every HTTP call it
  issues in a `CFCall` trace, so "performs no provider call" is a
  statement about that trace.
* The docker daemon and the Traefik poll endpoint are likewise oracles
  (`DockerEnv`).
* Compiled regexes that arrive through configuration
  (`TRAEFIK_FILTER`, `TRAEFIK_FILTER_LABEL`, included/excluded host
  patterns) are embedded as opaque boolean predicates `String → Bool`,
  which is exactly how the engine consumes them (`MatchString`).
  The three regex literals hard-coded in the source
  (the hostname capture classes and the label-key patterns) are
  translated into executable scanners below.
* Logging, TLS setup and process signals are not modelled.
-/

namespace Gompanion

/-- Backtick character (code point 96), the quote used by Traefik v2
rules; factored out so the scanners can test for it. -/
def btChar : Char := Char.ofNat 96

/-- Character class `[a-zA-Z0-9.\-]` of the hostname capture group in the
regexes of `parseTraefikV2Rule` and `parseTraefikRouterRule`. -/
def isTokChar (c : Char) : Bool :=
  (decide ('a' ≤ c) && decide (c ≤ 'z')) ||
  (decide ('A' ≤ c) && decide (c ≤ 'Z')) ||
  (decide ('0' ≤ c) && decide (c ≤ '9')) ||
  c == '.' || c == '-'

/-- ASCII fragment of Go's `unicode.IsSpace`, used by `strings.TrimSpace`
(space, tab, newline, vertical tab, form feed, carriage return).  The
hostnames handled by the tool are ASCII, so this fragment is faithful. -/
def isSpaceChar (c : Char) : Bool :=
  c == ' ' || c == '\t' || c == '\n' || c == '\r' ||
  c == Char.ofNat 11 || c == Char.ofNat 12

/-- Index of the first occurrence of `pat` in a character list, as in Go's
`strings.Index`; `none` plays the role of Go's `-1`. -/
def firstIdx (pat : List Char) : List Char → Option Nat
  | [] => if pat.isPrefixOf ([] : List Char) then some 0 else none
  | c :: rest =>
    if pat.isPrefixOf (c :: rest) then some 0
    else (firstIdx pat rest).map (fun n => n + 1)

/-- Go's `strings.Contains` on `String`s, via `firstIdx`. -/
def strContains (s pat : String) : Bool :=
  (firstIdx pat.toList s.toList).isSome

/-- Leading-whitespace part of `strings.TrimSpace`. -/
def dropLeading (l : List Char) : List Char := l.dropWhile isSpaceChar

/-- Trailing-whitespace part of `strings.TrimSpace`. -/
def dropTrailing (l : List Char) : List Char :=
  (l.reverse.dropWhile isSpaceChar).reverse

/-- Go's `strings.TrimSpace` on character lists. -/
def trimSpace (l : List Char) : List Char := dropTrailing (dropLeading l)

/-- Go's `strings.Split(raw, ",")` on character lists: the comma-separated
components, in order; splitting the empty list yields one empty component,
as in Go. -/
def splitComma : List Char → List (List Char)
  | [] => [[]]
  | c :: rest =>
    if c = ',' then [] :: splitComma rest
    else
      match splitComma rest with
      | t :: ts => (c :: t) :: ts
      | [] => [[c]]

/-- Comma-join of a token list; the left inverse of `splitComma` used to
state what a rule containing a `Host:a,b,c` clause looks like. -/
def joinComma : List (List Char) → List Char
  | [] => []
  | [t] => t
  | t :: ts => t ++ ',' :: joinComma ts

/-- Characters of the literal `"Host"` checked by `strings.Contains`. -/
def hostChars : List Char := ['H', 'o', 's', 't']

/-- Characters of the literal `"Host:"` located by `strings.Index`. -/
def hostColonChars : List Char := ['H', 'o', 's', 't', ':']

/-- Translation of `parseTraefikV1HostRule` (the legacy-syntax parser):
if the rule does not contain `"Host"` the result is empty; otherwise the
text after the first `"Host:"` is trimmed, split on commas, each part is
trimmed and empty parts are dropped. -/
def parseTraefikV1HostRule (rule : List Char) : List (List Char) :=
  if (firstIdx hostChars rule).isSome = false then []
  else
    match firstIdx hostColonChars rule with
    | none => []
    | some idx =>
      let raw := trimSpace (rule.drop (idx + 5))
      ((splitComma raw).map trimSpace).filter (fun t => !t.isEmpty)

/-- One matching attempt of the regex `` `([a-zA-Z0-9.\-]+)` `` of
`parseTraefikV2Rule` at the head of the input: an opening backtick, a
non-empty maximal run of token characters, a closing backtick.  On
success it returns the captured token and the input after the match;
Go's leftmost-first semantics coincide with this test because the token
class excludes the backtick, so no shorter run of `+` can be followed by
the closing quote. -/
def tryV2At : List Char → Option (List Char × List Char)
  | [] => none
  | c :: rest =>
    if c = btChar then
      let tok := rest.takeWhile isTokChar
      match rest.dropWhile isTokChar with
      | c2 :: r2 => if c2 = btChar ∧ tok ≠ [] then some (tok, r2) else none
      | [] => none
    else none

/-- Fuel-indexed scanner shared by the two modern-rule parsers: at each
position it either emits the match attempted there (`tryAt`) and resumes
after it, or advances one character, exactly as `FindAllStringSubmatch`
enumerates non-overlapping matches.  The fuel `s.length` is always
sufficient because every step consumes at least one character. -/
def scanGenF (tryAt : List Char → Option (List Char × List Char)) :
    Nat → List Char → List (List Char)
  | 0, _ => []
  | _ + 1, [] => []
  | fuel + 1, c :: rest =>
    match tryAt (c :: rest) with
    | some (tok, r) => tok :: scanGenF tryAt fuel r
    | none => scanGenF tryAt fuel rest

/-- Translation of `parseTraefikV2Rule`: every backtick-quoted token of
`[a-zA-Z0-9.\-]+` anywhere in the rule, in left-to-right order. -/
def parseTraefikV2Rule (s : List Char) : List (List Char) :=
  scanGenF tryV2At s.length s

/-- Characters of the literal `"Host(`"` opening a modern host predicate. -/
def routerOpen : List Char := ['H', 'o', 's', 't', '(', btChar]

/-- One matching attempt of the regex ``Host\(`([a-zA-Z0-9.\-]+)`\)`` of
`parseTraefikRouterRule` at the head of the input. -/
def tryRouterAt (s : List Char) : Option (List Char × List Char) :=
  if routerOpen.isPrefixOf s then
    let rest := s.drop 6
    let tok := rest.takeWhile isTokChar
    match rest.dropWhile isTokChar with
    | c1 :: c2 :: r2 =>
      if c1 = btChar ∧ c2 = ')' ∧ tok ≠ [] then some (tok, r2) else none
    | _ => none
  else none

/-- Translation of `parseTraefikRouterRule`: the backtick-quoted hostnames
of the `Host(...)` calls of the rule, in left-to-right order. -/
def parseTraefikRouterRule (s : List Char) : List (List Char) :=
  scanGenF tryRouterAt s.length s

/-- Closing an opening backtick around a token: the shape of a quoted
token as it appears in a Traefik v2 rule. -/
def v2Block (tok : List Char) : List Char := btChar :: tok ++ [btChar]

/-- Shape of a full modern host predicate `` Host(`tok`) ``. -/
def routerBlock (tok : List Char) : List Char := routerOpen ++ tok ++ [btChar, ')']

/-- Interleaving of separator texts and quoted blocks: the general shape
of a boolean rule expression whose predicates are separated by arbitrary
backtick-free text (`&&`, `||`, other predicates, ...). -/
def blocksJoin (block : List Char → List Char) :
    List (List Char) → List (List Char) → List Char
  | s :: ss, tk :: tks => s ++ block tk ++ blocksJoin block ss tks
  | s :: _, [] => s
  | [], _ => []

/-! ### DNS provider data model (cloudflare.go) -/

/-- Provider-side record: identifier and current content
(`DNSRecord` of cloudflare.go). -/
structure DNSRecord where
  ID : String
  Content : String
deriving DecidableEq

/-- Request body of a create/update call (`DNSRecordRequest` of
cloudflare.go); the Go field `Type` is spelled `Type'` because `Type` is
reserved in Lean. -/
structure DNSRecordRequest where
  Type' : String
  Name : String
  Content : String
  TTL : Int
  Proxied : Bool
  Comment : String
deriving DecidableEq

/-- One HTTP call issued to the Cloudflare API.  The synchronization
engine below records every call it makes in a trace of these. -/
inductive CFCall where
  | list (zoneID : String) (name : String)
  | create (zoneID : String) (req : DNSRecordRequest)
  | update (zoneID : String) (recordID : String) (req : DNSRecordRequest)
deriving DecidableEq

/-- Oracle for the thin Cloudflare REST client: what each call would
return.  `none` / `false` is a failed call (HTTP ≥ 400 or
`success=false`); the error text does not influence the engine's control
flow and is not modelled. -/
structure CloudflareEnv where
  listDNSRecords : String → String → Option (List DNSRecord)
  createDNSRecord : String → DNSRecordRequest → Bool
  updateDNSRecord : String → String → DNSRecordRequest → Bool

/-! ### Configuration (Config / DomainConfig) -/

/-- Translation of `DomainConfig`. -/
structure DomainConfig where
  Name : String
  Proxied : Bool
  ZoneID : String
  TTL : Int
  TargetDomain : String
  Comment : String
  ExcludedSubDomains : List String
deriving DecidableEq

/-- The slice of `Config` read by the reconciliation core.  Compiled
regexes are embedded as the boolean predicates the code derives from
them via `MatchString`; fields that only configure transports (TLS
material, URLs, poll interval, credentials) are not modelled. -/
structure Config where
  DryRun : Bool
  RefreshEntries : Bool
  EnableDockerPoll : Bool
  DockerSwarmMode : Bool
  EnableTraefikPoll : Bool
  TraefikVersion : String
  RecordType : String
  Domains : List DomainConfig
  TraefikFilter : Option (String → Bool)
  TraefikFilterKey : String → Bool
  IncludedHosts : List (String → Bool)
  ExcludedHosts : List (String → Bool)

/-! ### Synchronization engine (SyncMappings / pointDomain) -/

/-- Translation of `isDomainExcluded`: the hostname is excluded when it
contains `<excluded>.<domain>` as a substring for some excluded
subdomain of the domain. -/
def isDomainExcluded (name : String) (dom : DomainConfig) : Bool :=
  dom.ExcludedSubDomains.any (fun sub => strContains name (sub ++ ("." : String) ++ dom.Name))

/-- The three skip guards at the top of `pointDomain`'s loop, as one
predicate: the domain participates in reconciliation of `name` iff the
hostname is not the domain's own target, contains the domain name as a
substring, and is not excluded. -/
def domainMatches (name : String) (dom : DomainConfig) : Bool :=
  !(name == dom.TargetDomain) && strContains name dom.Name && !(isDomainExcluded name dom)

/-- The desired-record body built inside `pointDomain`. -/
def mkRecordRequest (cfg : Config) (dom : DomainConfig) (name : String) : DNSRecordRequest :=
  { Type' := cfg.RecordType, Name := name, Content := dom.TargetDomain,
    TTL := dom.TTL, Proxied := dom.Proxied, Comment := dom.Comment }

/-- Body of `pointDomain`'s inner loop over existing records: a record is
updated iff its content differs from the domain's target or
`RefreshEntries` is set; under dry-run the update is only logged; a
failed update clears the ok flag and the loop continues.  The
accumulator carries (ok flag, call trace). -/
def applyRecord (cfg : Config) (env : CloudflareEnv) (name : String) (dom : DomainConfig)
    (a : Bool × List CFCall) (r : DNSRecord) : Bool × List CFCall :=
  let data := mkRecordRequest cfg dom name
  if (r.Content != dom.TargetDomain) || cfg.RefreshEntries then
    if cfg.DryRun then a
    else
      let calls := a.2 ++ [CFCall.update dom.ZoneID r.ID data]
      if env.updateDNSRecord dom.ZoneID r.ID data then (a.1, calls) else (false, calls)
  else a

/-- Body of `pointDomain`'s loop over configured domains: skip guards,
then the list call, then create (no records) or the update loop
(records exist); every provider error clears the ok flag and processing
continues with the next domain. -/
def pointDomainStep (cfg : Config) (env : CloudflareEnv) (name : String)
    (acc : Bool × List CFCall) (dom : DomainConfig) : Bool × List CFCall :=
  if name == dom.TargetDomain then acc
  else if !(strContains name dom.Name) then acc
  else if isDomainExcluded name dom then acc
  else
    let calls := acc.2 ++ [CFCall.list dom.ZoneID name]
    match env.listDNSRecords dom.ZoneID name with
    | none => (false, calls)
    | some records =>
      let data := mkRecordRequest cfg dom name
      if records.isEmpty then
        if cfg.DryRun then (acc.1, calls)
        else
          let calls2 := calls ++ [CFCall.create dom.ZoneID data]
          if env.createDNSRecord dom.ZoneID data then (acc.1, calls2) else (false, calls2)
      else
        records.foldl (applyRecord cfg env name dom) (acc.1, calls)

/-- Reconciliation of one domain in isolation (the loop body started from
a clean accumulator); `pointDomain` is the fold of `pointDomainStep` and
is characterised in terms of `domSync` below. -/
def domSync (cfg : Config) (env : CloudflareEnv) (name : String) (dom : DomainConfig) :
    Bool × List CFCall :=
  pointDomainStep cfg env name (true, []) dom

/-- Translation of `pointDomain`: reconcile `name` against every
configured domain; the boolean is Go's `ok` (true iff no list, create or
update call failed), the list is the trace of provider calls issued. -/
def pointDomain (cfg : Config) (env : CloudflareEnv) (name : String) : Bool × List CFCall :=
  cfg.Domains.foldl (pointDomainStep cfg env name) (true, [])

/-- The `SyncedState` map `Companion.synced`, as an association list;
`List.lookup` reads it and consing overwrites an entry.  The mutex that
guards it in Go serialises exactly the read and the write modelled
here. -/
abbrev SyncedState := List (String × Int)

/-- The body of `SyncMappings` after the priority check has passed:
run `pointDomain` and record the hostname at the incoming priority iff
it reported success. -/
def syncProceed (cfg : Config) (env : CloudflareEnv) (st : SyncedState)
    (name : String) (source : Int) : SyncedState × List CFCall :=
  let r := pointDomain cfg env name
  (if r.1 then (name, source) :: st else st, r.2)

/-- One iteration of `SyncMappings`'s loop for the pair
`(name, source)`: skip (no calls, state unchanged) when the hostname is
already recorded at a priority ≤ the incoming one, otherwise reconcile
and record on success. -/
def syncOne (cfg : Config) (env : CloudflareEnv) (st : SyncedState)
    (name : String) (source : Int) : SyncedState × List CFCall :=
  match st.lookup name with
  | some current =>
    if current ≤ source then (st, [])
    else syncProceed cfg env st name source
  | none => syncProceed cfg env st name source

/-- Translation of `SyncMappings`: fold `syncOne` over the merged
mapping (Go iterates its map in unspecified order; the entries are
modelled as a list), accumulating the call trace. -/
def SyncMappings (cfg : Config) (env : CloudflareEnv) (st : SyncedState)
    (mappings : List (String × Int)) : SyncedState × List CFCall :=
  mappings.foldl
    (fun acc p =>
      let r := syncOne cfg env acc.1 p.1 p.2
      (r.1, acc.2 ++ r.2))
    (st, [])

/-- Translation of `addToMappings`: merge `incoming` into `current`,
keeping for every hostname the numerically smallest (most authoritative)
priority seen. -/
def addToMappings (current incoming : List (String × Int)) : List (String × Int) :=
  incoming.foldl
    (fun cur p =>
      match cur.lookup p.1 with
      | none => (p.1, p.2) :: cur
      | some curr => if curr > p.2 then (p.1, p.2) :: cur else cur)
    current

/-- Pointwise minimum of two optional priorities; the specification-side
combinator against which `addToMappings` is checked. -/
def minOpt : Option Int → Option Int → Option Int
  | none, y => y
  | some a, none => some a
  | some a, some b => some (min a b)

/-! ### Discovery: label checkers and the Traefik poller -/

/-- Translation of `matchTraefikFilter`: when no value filter is
configured every entity passes; otherwise some label must have a key
matched by the key pattern and a value matched by the filter pattern. -/
def matchTraefikFilter (cfg : Config) (labels : List (String × String)) : Bool :=
  match cfg.TraefikFilter with
  | none => true
  | some filt => labels.any (fun kv => cfg.TraefikFilterKey kv.1 && filt kv.2)

/-- Characters of the literal `"traefik"` of the label-key regexes. -/
def traefikChars : List Char := ['t', 'r', 'a', 'e', 'f', 'i', 'k']

/-- Characters of the literal `"frontend"`. -/
def frontendChars : List Char := ['f', 'r', 'o', 'n', 't', 'e', 'n', 'd']

/-- Characters of the literal `"rule"`. -/
def ruleChars : List Char := ['r', 'u', 'l', 'e']

/-- Characters of the literal `".rule"`. -/
def dotRuleChars : List Char := ['.', 'r', 'u', 'l', 'e']

/-- Scan for `frontend` followed by exactly one arbitrary character and
then `rule` (the `frontend.rule` tail of the v1 key regex, in which the
dots are unescaped wildcards). -/
def hasFrontendRule : List Char → Bool
  | [] => false
  | c :: rest =>
    (frontendChars.isPrefixOf (c :: rest) && ruleChars.isPrefixOf ((c :: rest).drop 9)) ||
    hasFrontendRule rest

/-- `MatchString` of the v1 key regex `traefik.*.frontend.rule`
(unanchored; the unescaped dots are wildcards): the key contains
`traefik`, then at least one character, then `frontend`, one character,
`rule`. -/
def t1KeyMatches (key : String) : Bool :=
  match firstIdx traefikChars key.toList with
  | none => false
  | some i => hasFrontendRule (key.toList.drop (i + 8))

/-- `MatchString` of the v2 key regex `traefik.*?\.rule` (unanchored):
the key contains `traefik` followed, possibly later, by `.rule`. -/
def t2KeyMatches (key : String) : Bool :=
  match firstIdx traefikChars key.toList with
  | none => false
  | some i => (firstIdx dotRuleChars (key.toList.drop (i + 7))).isSome

/-- Translation of `checkContainerT1`: v1 label discovery over a
container's labels; every hostname extracted from a frontend-rule label
is mapped to priority 1.  Go iterates the label map in unspecified
order; the labels are modelled as a list. -/
def checkContainerT1 (cfg : Config) (labels : List (String × String)) : List (String × Int) :=
  if !(matchTraefikFilter cfg labels) then []
  else
    labels.foldl
      (fun m kv =>
        if t1KeyMatches kv.1 then
          (parseTraefikV1HostRule kv.2.toList).foldl
            (fun m host => (host.asString, (1 : Int)) :: m) m
        else m)
      []

/-- Translation of `checkServiceT1` (same body as the container variant;
only the log text differs in Go). -/
def checkServiceT1 (cfg : Config) (labels : List (String × String)) : List (String × Int) :=
  if !(matchTraefikFilter cfg labels) then []
  else
    labels.foldl
      (fun m kv =>
        if t1KeyMatches kv.1 then
          (parseTraefikV1HostRule kv.2.toList).foldl
            (fun m host => (host.asString, (1 : Int)) :: m) m
        else m)
      []

/-- Translation of `checkContainerT2`: v2 label discovery; a label
participates when its key matches the v2 key pattern and its value
contains `"Host"`; hostnames get priority 1. -/
def checkContainerT2 (cfg : Config) (labels : List (String × String)) : List (String × Int) :=
  if !(matchTraefikFilter cfg labels) then []
  else
    labels.foldl
      (fun m kv =>
        if t2KeyMatches kv.1 && strContains kv.2 ("Host") then
          (parseTraefikV2Rule kv.2.toList).foldl
            (fun m host => (host.asString, (1 : Int)) :: m) m
        else m)
      []

/-- Translation of `checkServiceT2` (same body as the container variant). -/
def checkServiceT2 (cfg : Config) (labels : List (String × String)) : List (String × Int) :=
  if !(matchTraefikFilter cfg labels) then []
  else
    labels.foldl
      (fun m kv =>
        if t2KeyMatches kv.1 && strContains kv.2 ("Host") then
          (parseTraefikV2Rule kv.2.toList).foldl
            (fun m host => (host.asString, (1 : Int)) :: m) m
        else m)
      []

/-- Translation of `isMatching`: does the host match at least one of the
compiled patterns (embedded as predicates). -/
def isMatching (host : String) (regexes : List (String → Bool)) : Bool :=
  regexes.any (fun re => re host)

/-- One route of the Traefik routing table (`TraefikRouter`). -/
structure TraefikRouter where
  Name : String
  Rule : String
  Status : String

/-- Translation of `Companion.checkTraefik` given the outcome of
`FetchTraefikRouters`: a transport error (`none`) or a non-200 status is
a soft failure yielding no mapping; otherwise every enabled, named route
whose rule mentions `Host` is parsed with the router-rule parser and the
hostnames surviving the include/exclude patterns get priority 2. -/
def checkTraefik (cfg : Config) (fetch : Option (List TraefikRouter × Nat)) :
    List (String × Int) :=
  match fetch with
  | none => []
  | some (routers, statusCode) =>
    if statusCode ≠ 200 then []
    else
      routers.foldl
        (fun m router =>
          if router.Status ≠ ("enabled") ∨ router.Name = ("") then m
          else if !(strContains router.Rule ("Host")) then m
          else
            (parseTraefikRouterRule router.Rule.toList).foldl
              (fun m host =>
                let h := host.asString
                if !(isMatching h cfg.IncludedHosts) then m
                else if isMatching h cfg.ExcludedHosts then m
                else (h, (2 : Int)) :: m)
              m)
        []

/-! ### Discovery: snapshot scan and startup control flow (main) -/

/-- Inspection result of one container: its id and label set. -/
structure ContainerDetail where
  id : String
  labels : List (String × String)

/-- One swarm service: id, the labels of its container spec (the spec may
be absent, Go's nil pointer) and the service-level labels. -/
structure SwarmService where
  id : String
  containerSpecLabels : Option (List (String × String))
  specLabels : List (String × String)

/-- Oracle for the docker daemon and the Traefik poll endpoint during the
snapshot scan: list calls may fail as a whole (`none`), inspection may
fail per entity. -/
structure DockerEnv where
  containerList : Option (List String)
  containerInspect : String → Option ContainerDetail
  serviceList : Option (List SwarmService)
  traefikFetch : Option (List TraefikRouter × Nat)

/-- Container half of `GetInitialMappings`: enumerate all containers
(failure aborts the whole scan), inspect each one (failure skips that
container) and merge the discovered hostnames. -/
def scanContainers (cfg : Config) (env : DockerEnv) (m : List (String × Int)) :
    Option (List (String × Int)) :=
  match env.containerList with
  | none => none
  | some ids =>
    some (ids.foldl
      (fun m cid =>
        match env.containerInspect cid with
        | none => m
        | some det =>
          if cfg.TraefikVersion = ("1") then
            addToMappings m (checkContainerT1 cfg det.labels)
          else
            addToMappings m (checkContainerT2 cfg det.labels))
      m)

/-- Service half of `GetInitialMappings` for swarm mode: enumerate all
services (failure aborts the whole scan) and merge the discovered
hostnames; a v1 service whose container spec is absent is skipped. -/
def scanServices (cfg : Config) (env : DockerEnv) (m : List (String × Int)) :
    Option (List (String × Int)) :=
  match env.serviceList with
  | none => none
  | some svcs =>
    some (svcs.foldl
      (fun m svc =>
        if cfg.TraefikVersion = ("1") then
          match svc.containerSpecLabels with
          | none => m
          | some ls => addToMappings m (checkServiceT1 cfg ls)
        else
          addToMappings m (checkServiceT2 cfg svc.specLabels))
      m)

/-- Translation of `GetInitialMappings`: containers (when docker polling
is enabled), then services (when swarm mode is enabled), then one
synchronous Traefik poll (when Traefik polling is enabled); `none`
reports the error returned when one of the two enumeration calls
fails. -/
def GetInitialMappings (cfg : Config) (env : DockerEnv) : Option (List (String × Int)) :=
  match (if cfg.EnableDockerPoll then scanContainers cfg env [] else some []) with
  | none => none
  | some m1 =>
    match (if cfg.DockerSwarmMode then scanServices cfg env m1 else some m1) with
    | none => none
    | some m2 =>
      some (if cfg.EnableTraefikPoll then addToMappings m2 (checkTraefik cfg env.traefikFetch) else m2)

/-- Outcome of the startup sequence of `main`: either the process exits
with a code, or it reaches the steady state with the synced map produced
by the initial pass and the two flags telling which background tasks are
started. -/
inductive StartupOutcome where
  | exited (code : Nat)
  | running (synced : List (String × Int)) (traefikPoller : Bool) (dockerWatch : Bool)
deriving DecidableEq

/-- Translation of the startup control flow of `main` (config load,
Cloudflare client init and docker client init each exit the process on
failure; the outcomes of those constructors are oracles here).  A failed
`GetInitialMappings` is caught inside `runWithRecover`'s closure: the
error is logged, `initialMappings` keeps its empty initial value and the
process continues into `SyncMappings` and the background tasks. -/
def mainFlow (cfgLoad : Option Config) (cfInitOk dockerInitOk : Bool)
    (env : DockerEnv) (cf : CloudflareEnv) : StartupOutcome :=
  match cfgLoad with
  | none => .exited 1
  | some cfg =>
    if !cfInitOk then .exited 1
    else if cfg.EnableDockerPoll && !dockerInitOk then .exited 1
    else
      let initialMappings :=
        match GetInitialMappings cfg env with
        | none => ([] : List (String × Int))
        | some m => m
      .running (SyncMappings cfg cf [] initialMappings).1
        cfg.EnableTraefikPoll cfg.EnableDockerPoll

/-! ### Discovery: docker event watcher (RunDockerEventWatch) -/

/-- One item delivered by the docker event stream: an event carrying its
timestamp together with whether processing it panics inside the
`runWithRecover` closure, a stream error from the error channel, or an
unexpected close of the event channel. -/
inductive WatchItem where
  | event (time : Int) (panics : Bool)
  | streamError
  | closed
deriving DecidableEq

/-- Replace the processing outcome of every event by success; used to
state that the cursor and reconnect behaviour of the watcher do not
depend on whether per-event processing succeeds. -/
def scrubPanic : WatchItem → WatchItem
  | .event t _ => .event t false
  | .streamError => .streamError
  | .closed => .closed

/-- Translation of the cursor and reconnect logic of
`RunDockerEventWatch` over a finite stream history: an event first
advances `since` to the event's timestamp and then processes (a panic is
recovered and the loop continues); a stream error or channel close
reconnects with the current `since` (recorded in the first component);
the trace ending is external cancellation.  Returns the `since` values
used for reconnects, and the final cursor. -/
def runWatcher : Int → List WatchItem → List Int × Int
  | since, [] => ([], since)
  | _, .event t _ :: rest => runWatcher t rest
  | since, .streamError :: rest =>
    let r := runWatcher since rest
    (since :: r.1, r.2)
  | since, .closed :: rest =>
    let r := runWatcher since rest
    (since :: r.1, r.2)

/-! ### Concrete fixtures used by witnesses and counterexamples -/

/-- The domain of the specification's exclusion example:
`example.com` with excluded subdomain `internal`, pointing at
`lb.example.net`. -/
def exampleDomain : DomainConfig :=
  { Name := "example.com", Proxied := false, ZoneID := "z-example",
    TTL := 1, TargetDomain := "lb.example.net", Comment := "",
    ExcludedSubDomains := ["internal"] }

/-- A minimal configuration with the example domain; docker polling
enabled, everything else off. -/
def baseConfig : Config :=
  { DryRun := false, RefreshEntries := false, EnableDockerPoll := true,
    DockerSwarmMode := false, EnableTraefikPoll := false,
    TraefikVersion := "2", RecordType := "CNAME",
    Domains := [exampleDomain],
    TraefikFilter := none, TraefikFilterKey := fun _ => false,
    IncludedHosts := [fun _ => true], ExcludedHosts := [] }

/-- A provider oracle on which every call succeeds and no record exists
yet. -/
def emptyZoneEnv : CloudflareEnv :=
  { listDNSRecords := fun _ _ => some [],
    createDNSRecord := fun _ _ => true,
    updateDNSRecord := fun _ _ _ => true }

/-- A provider oracle whose zone already holds one record for every name,
with content equal to the example domain's target. -/
def matchedRecordEnv : CloudflareEnv :=
  { listDNSRecords := fun _ _ => some [{ ID := "rec-1", Content := "lb.example.net" }],
    createDNSRecord := fun _ _ => true,
    updateDNSRecord := fun _ _ _ => true }

/-- A provider oracle on which every call fails. -/
def failingZoneEnv : CloudflareEnv :=
  { listDNSRecords := fun _ _ => none,
    createDNSRecord := fun _ _ => false,
    updateDNSRecord := fun _ _ _ => false }

/-- A docker oracle whose container enumeration call fails. -/
def failingListEnv : DockerEnv :=
  { containerList := none,
    containerInspect := fun _ => none,
    serviceList := some [],
    traefikFetch := none }

/-! ## Helper lemmas about the synchronization engine -/

/-- A fold whose step ignores its second argument leaves the accumulator
unchanged. -/
theorem foldl_fixed_of_id {α β : Type} {f : α → β → α} (hf : ∀ a x, f a x = a) :
    ∀ (l : List β) (a : α), l.foldl f a = a := by
  intro l
  induction l with
  | nil => intro a; rfl
  | cons x xs ih => intro a; rw [List.foldl_cons, hf]; exact ih a

/-- The record-update loop body acts on the accumulator by and-ing the ok
flag and appending its own calls. -/
theorem applyRecord_acc (cfg : Config) (env : CloudflareEnv) (name : String)
    (dom : DomainConfig) (b : Bool) (cs : List CFCall) (r : DNSRecord) :
    applyRecord cfg env name dom (b, cs) r =
      (b && (applyRecord cfg env name dom (true, []) r).1,
       cs ++ (applyRecord cfg env name dom (true, []) r).2) := by
  by_cases h1 : ((r.Content != dom.TargetDomain) || cfg.RefreshEntries) = true
  · by_cases h2 : cfg.DryRun = true
    · simp [applyRecord, h1, h2]
    · by_cases h3 :
        env.updateDNSRecord dom.ZoneID r.ID (mkRecordRequest cfg dom name) = true
      · simp [applyRecord, h1, h2, h3]
      · simp [applyRecord, h1, h2, h3]
  · simp [applyRecord, h1]

/-- Accumulator form of the whole record-update loop. -/
theorem foldl_applyRecord_acc (cfg : Config) (env : CloudflareEnv) (name : String)
    (dom : DomainConfig) :
    ∀ (records : List DNSRecord) (b : Bool) (cs : List CFCall),
      records.foldl (applyRecord cfg env name dom) (b, cs) =
        (b && (records.foldl (applyRecord cfg env name dom) (true, [])).1,
         cs ++ (records.foldl (applyRecord cfg env name dom) (true, [])).2) := by
  intro records
  induction records with
  | nil => intro b cs; simp
  | cons r rs ih =>
    intro b cs
    simp only [List.foldl_cons]
    rcases h0 : applyRecord cfg env name dom (true, []) r with ⟨b0, c0⟩
    rw [applyRecord_acc cfg env name dom b cs r, h0]
    rw [ih (b && b0) (cs ++ c0), ih b0 c0]
    simp [Bool.and_assoc, List.append_assoc]

/-- The per-domain loop body acts on the accumulator by and-ing the ok
flag and appending the calls of the isolated reconciliation `domSync`. -/
theorem pointDomainStep_acc (cfg : Config) (env : CloudflareEnv) (name : String)
    (b : Bool) (cs : List CFCall) (dom : DomainConfig) :
    pointDomainStep cfg env name (b, cs) dom =
      (b && (domSync cfg env name dom).1, cs ++ (domSync cfg env name dom).2) := by
  unfold domSync pointDomainStep
  by_cases h1 : (name == dom.TargetDomain) = true
  · simp [h1]
  · by_cases h2 : strContains name dom.Name = true
    · by_cases h3 : isDomainExcluded name dom = true
      · simp [h1, h2, h3]
      · simp only [h1, h2, h3, if_false, if_true, Bool.not_true, Bool.not_false,
          if_neg, Bool.false_eq_true, not_false_eq_true]
        rcases hlist : env.listDNSRecords dom.ZoneID name with _ | records
        · simp [hlist, h1, h2, h3]
        · simp only [hlist, h1, h2, h3]
          by_cases h4 : records.isEmpty = true
          · by_cases h5 : cfg.DryRun = true
            · simp [hlist, h1, h2, h3, h4, h5]
            · by_cases h6 :
                env.createDNSRecord dom.ZoneID (mkRecordRequest cfg dom name) = true
              · simp [hlist, h1, h2, h3, h4, h5, h6]
              · simp [hlist, h1, h2, h3, h4, h5, h6]
          · simp only [hlist, h1, h2, h3, h4]
            rw [foldl_applyRecord_acc cfg env name dom records b (cs ++ [CFCall.list dom.ZoneID name]),
                foldl_applyRecord_acc cfg env name dom records true ([] ++ [CFCall.list dom.ZoneID name])]
            simp [h1, h2, h3, h4, hlist]
    · simp [h1, h2]

/-- Accumulator form of `pointDomain`'s fold over the configured
domains. -/
theorem pointDomain_foldl_acc (cfg : Config) (env : CloudflareEnv) (name : String) :
    ∀ (doms : List DomainConfig) (b : Bool) (cs : List CFCall),
      doms.foldl (pointDomainStep cfg env name) (b, cs) =
        (b && doms.all (fun d => (domSync cfg env name d).1),
         cs ++ (doms.map (fun d => (domSync cfg env name d).2)).flatten) := by
  intro doms
  induction doms with
  | nil => intro b cs; simp
  | cons d ds ih =>
    intro b cs
    simp only [List.foldl_cons]
    rw [pointDomainStep_acc, ih]
    simp [Bool.and_assoc, List.append_assoc]

/-- `pointDomain` is the conjunction of the per-domain ok flags together
with the concatenation of the per-domain call traces. -/
theorem pointDomain_char (cfg : Config) (env : CloudflareEnv) (name : String) :
    pointDomain cfg env name =
      (cfg.Domains.all (fun d => (domSync cfg env name d).1),
       (cfg.Domains.map (fun d => (domSync cfg env name d).2)).flatten) := by
  unfold pointDomain
  rw [pointDomain_foldl_acc]
  simp

/-- A domain failing any of the three skip guards contributes nothing:
no calls and a vacuously true ok flag. -/
theorem domSync_skip (cfg : Config) (env : CloudflareEnv) (name : String)
    (dom : DomainConfig) (h : domainMatches name dom = false) :
    domSync cfg env name dom = (true, []) := by
  unfold domSync pointDomainStep
  by_cases h1 : (name == dom.TargetDomain) = true
  · simp [h1]
  · by_cases h2 : strContains name dom.Name = true
    · by_cases h3 : isDomainExcluded name dom = true
      · simp [h1, h2, h3]
      · exfalso
        simp [domainMatches, h1, h2, h3] at h
    · simp [h1, h2]

/-- Elements dropped by a filter that map to `[]` do not change the
flattened image. -/
theorem flatten_map_filter {α : Type} (p : α → Bool) (f : α → List CFCall)
    (hf : ∀ d, p d = false → f d = []) :
    ∀ ds : List α, ((ds.filter p).map f).flatten = (ds.map f).flatten := by
  intro ds
  induction ds with
  | nil => rfl
  | cons d ds ih =>
    by_cases h : p d = true
    · simp only [List.filter_cons_of_pos h, List.map_cons, List.flatten_cons, ih]
    · have h' : p d = false := by
        cases hpd : p d
        · rfl
        · exact absurd hpd h
      simp only [List.filter_cons, h', List.map_cons, List.flatten_cons,
        hf d h', List.nil_append, ih, Bool.false_eq_true, if_false]

/-- Elements dropped by a filter whose flag is vacuously true do not
change the conjunction of flags. -/
theorem all_filter_of_true {α : Type} (p : α → Bool) (ok : α → Bool)
    (hf : ∀ d, p d = false → ok d = true) :
    ∀ ds : List α, (ds.filter p).all ok = ds.all ok := by
  intro ds
  induction ds with
  | nil => rfl
  | cons d ds ih =>
    by_cases h : p d = true
    · simp only [List.filter_cons_of_pos h, List.all_cons, ih]
    · have h' : p d = false := by
        cases hpd : p d
        · rfl
        · exact absurd hpd h
      simp only [List.filter_cons, h', List.all_cons, hf d h', Bool.true_and,
        ih, Bool.false_eq_true, if_false]

/-- When the hostname is not yet recorded, `SyncMappings`'s loop body
reconciles unconditionally. -/
theorem syncOne_lookup_none (cfg : Config) (env : CloudflareEnv) (st : SyncedState)
    (name : String) (source : Int) (h : st.lookup name = none) :
    syncOne cfg env st name source = syncProceed cfg env st name source := by
  unfold syncOne
  rw [h]

/-- When the hostname is recorded at a priority that is at most the
incoming one, the loop body is a no-op. -/
theorem syncOne_lookup_le (cfg : Config) (env : CloudflareEnv) (st : SyncedState)
    (name : String) (source current : Int) (h : st.lookup name = some current)
    (hle : current ≤ source) :
    syncOne cfg env st name source = (st, []) := by
  unfold syncOne
  rw [h]
  simp [hle]

/-- When the hostname is recorded at a strictly greater (less
authoritative) priority, the loop body reconciles. -/
theorem syncOne_lookup_gt (cfg : Config) (env : CloudflareEnv) (st : SyncedState)
    (name : String) (source current : Int) (h : st.lookup name = some current)
    (hgt : source < current) :
    syncOne cfg env st name source = syncProceed cfg env st name source := by
  unfold syncOne
  rw [h]
  simp [not_le.mpr hgt]

/-- Under dry-run every record-update iteration is the identity. -/
theorem applyRecord_dryRun (cfg : Config) (env : CloudflareEnv) (name : String)
    (dom : DomainConfig) (hdry : cfg.DryRun = true) (a : Bool × List CFCall)
    (r : DNSRecord) : applyRecord cfg env name dom a r = a := by
  by_cases h1 : ((r.Content != dom.TargetDomain) || cfg.RefreshEntries) = true
  · simp [applyRecord, h1, hdry]
  · simp [applyRecord, h1]

/-- Under dry-run the isolated reconciliation of a matching domain issues
exactly the list call and succeeds iff that call succeeds. -/
theorem domSync_dryRun (cfg : Config) (env : CloudflareEnv) (name : String)
    (dom : DomainConfig) (hdry : cfg.DryRun = true)
    (hm : domainMatches name dom = true) :
    domSync cfg env name dom =
      ((env.listDNSRecords dom.ZoneID name).isSome, [CFCall.list dom.ZoneID name]) := by
  rw [domainMatches, Bool.and_eq_true, Bool.and_eq_true] at hm
  obtain ⟨⟨hm1, hm2⟩, hm3⟩ := hm
  have h1 : (name == dom.TargetDomain) = false := by
    cases he : (name == dom.TargetDomain)
    · rfl
    · rw [he] at hm1; exact absurd hm1 (by decide)
  have h3 : isDomainExcluded name dom = false := by
    cases he : isDomainExcluded name dom
    · rfl
    · rw [he] at hm3; exact absurd hm3 (by decide)
  unfold domSync pointDomainStep
  rcases hlist : env.listDNSRecords dom.ZoneID name with _ | records
  · simp [h1, hm2, h3, hlist]
  · by_cases h4 : records.isEmpty = true
    · simp [h1, hm2, h3, hlist, h4, hdry]
    · simp only [h1, hm2, h3, hlist, h4, Bool.not_true, Bool.false_eq_true,
        if_false, Bool.not_false, if_true, Option.isSome_some]
      rw [foldl_fixed_of_id (applyRecord_dryRun cfg env name dom hdry)]
      simp

/-- Lookup misses every association list whose keys avoid the key. -/
theorem lookup_eq_none_of_not_mem {l : List (String × Int)} {a : String}
    (h : a ∉ l.map Prod.fst) : l.lookup a = none := by
  induction l with
  | nil => rfl
  | cons p ps ih =>
    simp only [List.map_cons, List.mem_cons, not_or] at h
    have hne : (a == p.1) = false := by
      cases he : (a == p.1)
      · rfl
      · exact absurd (by simpa using he) h.1
    simp [List.lookup, hne, ih h.2]

/-- Right unit of `minOpt`. -/
theorem minOpt_none_right (x : Option Int) : minOpt x none = x := by
  cases x <;> rfl

/-- Lookup after the merge step for a single incoming pair. -/
theorem addToMappings_one_lookup (cur : List (String × Int)) (p : String × Int)
    (h : String) :
    (match cur.lookup p.1 with
      | none => (p.1, p.2) :: cur
      | some curr => if curr > p.2 then (p.1, p.2) :: cur else cur).lookup h =
      if h = p.1 then minOpt (cur.lookup p.1) (some p.2) else cur.lookup h := by
  by_cases hh : h = p.1
  · subst hh
    rcases hc : cur.lookup p.1 with _ | curr
    · simp [List.lookup, hc, minOpt]
    · by_cases hgt : curr > p.2
      · simp [List.lookup, hc, hgt, minOpt, min_eq_right (le_of_lt hgt)]
      · simp [List.lookup, hc, hgt, minOpt, min_eq_left (not_lt.mp hgt)]
  · have hne : (h == p.1) = false := by
      cases he : (h == p.1)
      · rfl
      · exact absurd (by simpa using he) hh
    rcases hc : cur.lookup p.1 with _ | curr
    · simp [List.lookup, hne, hh]
    · by_cases hgt : curr > p.2
      · simp [List.lookup, hne, hh, hgt]
      · simp [List.lookup, hne, hh, hgt]

/-- Lookup in the merged mapping is the pointwise minimum, provided the
incoming snapshot has no duplicate hostnames (it is a Go map). -/
theorem addToMappings_lookup :
    ∀ (incoming current : List (String × Int)) (h : String),
      (incoming.map Prod.fst).Nodup →
      (addToMappings current incoming).lookup h =
        minOpt (current.lookup h) (incoming.lookup h) := by
  intro incoming
  induction incoming with
  | nil =>
    intro current h _
    simp [addToMappings, minOpt_none_right]
  | cons p ps ih =>
    intro current h hnd
    simp only [List.map_cons, List.nodup_cons] at hnd
    have hstep : addToMappings current (p :: ps) =
        addToMappings
          (match current.lookup p.1 with
            | none => (p.1, p.2) :: current
            | some curr => if curr > p.2 then (p.1, p.2) :: current else current)
          ps := by
      simp [addToMappings, List.foldl_cons]
    rw [hstep, ih _ h hnd.2, addToMappings_one_lookup]
    by_cases hh : h = p.1
    · subst hh
      have hps : ps.lookup p.1 = none := lookup_eq_none_of_not_mem hnd.1
      rw [hps, minOpt_none_right]
      have : (p :: ps).lookup p.1 = some p.2 := by simp [List.lookup]
      rw [this]
      simp
    · have hne : (h == p.1) = false := by
        cases he : (h == p.1)
        · rfl
        · exact absurd (by simpa using he) hh
      simp only [if_neg hh]
      have : (p :: ps).lookup h = ps.lookup h := by simp [List.lookup, hne]
      rw [this]

/-- Commutativity of the pointwise minimum. -/
theorem minOpt_comm (x y : Option Int) : minOpt x y = minOpt y x := by
  cases x <;> cases y <;> simp [minOpt, min_comm]

/-- Idempotence of the pointwise minimum. -/
theorem minOpt_idem (x : Option Int) : minOpt x x = x := by
  cases x <;> simp [minOpt]

/-- Ok-flag component of `pointDomain_char`. -/
theorem pointDomain_ok (cfg : Config) (env : CloudflareEnv) (name : String) :
    (pointDomain cfg env name).1 =
      cfg.Domains.all (fun d => (domSync cfg env name d).1) := by
  rw [pointDomain_char]

/-- Call-trace component of `pointDomain_char`. -/
theorem pointDomain_calls (cfg : Config) (env : CloudflareEnv) (name : String) :
    (pointDomain cfg env name).2 =
      (cfg.Domains.map (fun d => (domSync cfg env name d).2)).flatten := by
  rw [pointDomain_char]

/-- Call trace of the record-update loop outside dry-run: one update call
per qualifying record, in order. -/
theorem foldl_applyRecord_calls (cfg : Config) (env : CloudflareEnv) (name : String)
    (dom : DomainConfig) (hdry : cfg.DryRun = false) :
    ∀ (records : List DNSRecord) (b : Bool) (cs : List CFCall),
      (records.foldl (applyRecord cfg env name dom) (b, cs)).2 =
        cs ++ (records.filter
            (fun r => (r.Content != dom.TargetDomain) || cfg.RefreshEntries)).map
          (fun r => CFCall.update dom.ZoneID r.ID (mkRecordRequest cfg dom name)) := by
  intro records
  induction records with
  | nil => intro b cs; simp
  | cons r rs ih =>
    intro b cs
    simp only [List.foldl_cons]
    by_cases hq : ((r.Content != dom.TargetDomain) || cfg.RefreshEntries) = true
    · cases hupd : env.updateDNSRecord dom.ZoneID r.ID (mkRecordRequest cfg dom name)
      · have hstep : applyRecord cfg env name dom (b, cs) r =
            (false, cs ++ [CFCall.update dom.ZoneID r.ID (mkRecordRequest cfg dom name)]) := by
          simp [applyRecord, hq, hdry, hupd]
        rw [hstep, ih]
        simp [List.filter_cons, hq]
      · have hstep : applyRecord cfg env name dom (b, cs) r =
            (b, cs ++ [CFCall.update dom.ZoneID r.ID (mkRecordRequest cfg dom name)]) := by
          simp [applyRecord, hq, hdry, hupd]
        rw [hstep, ih]
        simp [List.filter_cons, hq]
    · have hq' : ((r.Content != dom.TargetDomain) || cfg.RefreshEntries) = false := by
        cases hx : ((r.Content != dom.TargetDomain) || cfg.RefreshEntries)
        · rfl
        · exact absurd hx hq
      have hstep : applyRecord cfg env name dom (b, cs) r = (b, cs) := by
        simp [applyRecord, hq']
      rw [hstep, ih]
      simp [List.filter_cons, hq']

/-- Per-domain call trace and ok flag under dry-run, over a list of
matching domains. -/
theorem domSync_dryRun_list (cfg : Config) (env : CloudflareEnv) (name : String)
    (hdry : cfg.DryRun = true) :
    ∀ ds : List DomainConfig, (∀ d ∈ ds, domainMatches name d = true) →
      ((ds.map (fun d => (domSync cfg env name d).2)).flatten =
        ds.map (fun d => CFCall.list d.ZoneID name)) ∧
      (ds.all (fun d => (domSync cfg env name d).1) =
        ds.all (fun d => (env.listDNSRecords d.ZoneID name).isSome)) := by
  intro ds
  induction ds with
  | nil => exact fun _ => ⟨rfl, rfl⟩
  | cons d rest ih =>
    intro hall
    have hd := hall d (List.mem_cons_self d rest)
    have hrest := ih (fun x hx => hall x (List.mem_cons_of_mem d hx))
    constructor
    · simp only [List.map_cons, List.flatten_cons,
        domSync_dryRun cfg env name d hdry hd, hrest.1]
      simp
    · simp only [List.all_cons, domSync_dryRun cfg env name d hdry hd, hrest.2]

/-- C3.  When remote records exist for a hostname in a matching domain's
zone (and dry-run is off), the per-domain reconciliation issues the list
call followed by exactly one update call per record whose content
differs from the target or when the force-refresh flag is set, in record
order; no create call is issued, and records whose content already
matches the target are untouched when force-refresh is off. -/
theorem pointDomain_update_policy :
    ∀ (cfg : Config) (env : CloudflareEnv) (name : String) (dom : DomainConfig)
      (records : List DNSRecord),
      domainMatches name dom = true →
      env.listDNSRecords dom.ZoneID name = some records →
      records ≠ [] →
      cfg.DryRun = false →
      (domSync cfg env name dom).2 =
        CFCall.list dom.ZoneID name ::
          (records.filter
              (fun r => (r.Content != dom.TargetDomain) || cfg.RefreshEntries)).map
            (fun r => CFCall.update dom.ZoneID r.ID (mkRecordRequest cfg dom name)) := by
  intro cfg env name dom records hm hlist hne hdry
  rw [domainMatches, Bool.and_eq_true, Bool.and_eq_true] at hm
  obtain ⟨⟨hm1, hm2⟩, hm3⟩ := hm
  have h1 : (name == dom.TargetDomain) = false := by
    cases he : (name == dom.TargetDomain)
    · rfl
    · rw [he] at hm1; exact absurd hm1 (by decide)
  have h3 : isDomainExcluded name dom = false := by
    cases he : isDomainExcluded name dom
    · rfl
    · rw [he] at hm3; exact absurd hm3 (by decide)
  have h4 : records.isEmpty = false := by
    cases records
    · exact absurd rfl hne
    · rfl
  unfold domSync pointDomainStep
  simp only [h1, hm2, h3, hlist, h4, Bool.not_true, Bool.not_false,
    Bool.false_eq_true, if_false, if_true]
  rw [foldl_applyRecord_calls cfg env name dom hdry records]
  simp

/-- Witness for C3: the zone holds one record whose content already
equals the example domain's target; with force-refresh off zero update
calls are issued, with force-refresh on exactly one update call is
issued even though the content matches. -/
theorem pointDomain_update_policy_witness :
    (domSync baseConfig matchedRecordEnv ("www.example.com") exampleDomain).2 =
      [CFCall.list ("z-example") ("www.example.com")] ∧
    (domSync { baseConfig with RefreshEntries := true } matchedRecordEnv
        ("www.example.com") exampleDomain).2 =
      [CFCall.list ("z-example") ("www.example.com"),
       CFCall.update ("z-example") ("rec-1")
         (mkRecordRequest { baseConfig with RefreshEntries := true } exampleDomain
           ("www.example.com"))] := by
  constructor
  · have h := pointDomain_update_policy baseConfig matchedRecordEnv
      ("www.example.com") exampleDomain
      [{ ID := "rec-1", Content := "lb.example.net" }]
      (by decide) rfl (by decide) rfl
    rw [h]; decide
  · have h := pointDomain_update_policy { baseConfig with RefreshEntries := true }
      matchedRecordEnv ("www.example.com") exampleDomain
      [{ ID := "rec-1", Content := "lb.example.net" }]
      (by decide) rfl (by decide) rfl
    rw [h]; decide

/-- C4.  `pointDomain` reconciles a hostname against exactly the
configured domains whose name is a substring of the hostname, excluding
the hostname equalling the domain's own target and excluding hostnames
containing `<excluded>.<domain>` for an excluded subdomain: its result
is determined by the filtered domain list alone; and on the
specification's examples, `api.internal.example.com` is excluded for
`example.com` with excluded subdomain `internal` while `api.example.com`
is not. -/
theorem pointDomain_matching_domains :
    (∀ (cfg : Config) (env : CloudflareEnv) (name : String),
      pointDomain cfg env name =
        ((cfg.Domains.filter (fun d => domainMatches name d)).all
            (fun d => (domSync cfg env name d).1),
         ((cfg.Domains.filter (fun d => domainMatches name d)).map
            (fun d => (domSync cfg env name d).2)).flatten)) ∧
    isDomainExcluded ("api.internal.example.com") exampleDomain = true ∧
    isDomainExcluded ("api.example.com") exampleDomain = false := by
  refine ⟨?_, by decide, by decide⟩
  intro cfg env name
  rw [pointDomain_char,
    all_filter_of_true (fun d => domainMatches name d)
      (fun d => (domSync cfg env name d).1)
      (fun d hd => by simp [domSync_skip cfg env name d hd]) cfg.Domains,
    flatten_map_filter (fun d => domainMatches name d)
      (fun d => (domSync cfg env name d).2)
      (fun d hd => by simp [domSync_skip cfg env name d hd]) cfg.Domains]

/-- C10.  Under dry-run the engine still issues exactly one provider list
call per matching domain and no create or update call; when those list
calls succeed, a pair that passes the priority check is recorded in
SyncedState at the incoming priority exactly as in non-dry-run mode, and
later passes at equal or less authoritative priority are then
suppressed even though no remote record was written. -/
theorem dryRun_frame_effect :
    ∀ (cfg : Config) (env : CloudflareEnv) (st : SyncedState) (name : String) (q : Int),
      cfg.DryRun = true →
      ((pointDomain cfg env name).2 =
        (cfg.Domains.filter (fun d => domainMatches name d)).map
          (fun d => CFCall.list d.ZoneID name)) ∧
      ((∀ d ∈ cfg.Domains.filter (fun d => domainMatches name d),
          (env.listDNSRecords d.ZoneID name).isSome = true) →
        st.lookup name = none →
        (syncOne cfg env st name q).1 = (name, q) :: st) ∧
      (∀ q' : Int, q ≤ q' →
        syncOne cfg env ((name, q) :: st) name q' = ((name, q) :: st, [])) := by
  intro cfg env st name q hdry
  have hmem : ∀ d ∈ cfg.Domains.filter (fun d => domainMatches name d),
      domainMatches name d = true := fun d hd => (List.mem_filter.mp hd).2
  refine ⟨?_, ?_, ?_⟩
  · rw [pointDomain_calls,
      ← flatten_map_filter (fun d => domainMatches name d)
        (fun d => (domSync cfg env name d).2)
        (fun d hd => by simp [domSync_skip cfg env name d hd]) cfg.Domains]
    exact (domSync_dryRun_list cfg env name hdry _ hmem).1
  · intro hlists hnone
    rw [syncOne_lookup_none cfg env st name q hnone]
    have hok : (pointDomain cfg env name).1 = true := by
      rw [pointDomain_ok,
        ← all_filter_of_true (fun d => domainMatches name d)
          (fun d => (domSync cfg env name d).1)
          (fun d hd => by simp [domSync_skip cfg env name d hd]) cfg.Domains,
        (domSync_dryRun_list cfg env name hdry _ hmem).2]
      exact List.all_eq_true.mpr hlists
    simp [syncProceed, hok]
  · intro q' hq
    have hl : ((name, q) :: st).lookup name = some q := by simp [List.lookup]
    exact syncOne_lookup_le cfg env _ name q' q hl hq

/-- Witness for C10: under dry-run on the empty zone the engine issues
only the list call, records the hostname at priority 1, and a later pass
at priority 2 is a no-op. -/
theorem dryRun_frame_effect_witness :
    (pointDomain { baseConfig with DryRun := true } emptyZoneEnv
        ("www.example.com")).2 =
      [CFCall.list ("z-example") ("www.example.com")] ∧
    (syncOne { baseConfig with DryRun := true } emptyZoneEnv []
        ("www.example.com") 1).1 = [(("www.example.com"), 1)] ∧
    syncOne { baseConfig with DryRun := true } emptyZoneEnv
        [(("www.example.com"), 1)] ("www.example.com") 2 =
      ([(("www.example.com"), 1)], []) := by
  have h := dryRun_frame_effect { baseConfig with DryRun := true } emptyZoneEnv []
    ("www.example.com") 1 rfl
  refine ⟨?_, ?_, ?_⟩
  · rw [h.1]; decide
  · exact h.2.1 (by decide) (by decide)
  · exact h.2.2 2 (by decide)

/-! ## Helper lemmas about the modern-rule scanners -/

/-- Backtick is not a token character. -/
theorem isTokChar_bt : isTokChar btChar = false := by decide

/-- A successful match attempt of the v2 token regex consumes at least
two characters. -/
theorem tryV2At_some_length : ∀ {s tok r : List Char},
    tryV2At s = some (tok, r) → r.length < s.length := by
  intro s tok r h
  cases s with
  | nil => simp [tryV2At] at h
  | cons c rest =>
    simp only [tryV2At] at h
    by_cases hc : c = btChar
    · rw [if_pos hc] at h
      rcases hd : rest.dropWhile isTokChar with _ | ⟨c2, r2⟩
      · simp only [hd] at h
        exact Option.noConfusion h
      · simp only [hd] at h
        by_cases hcd : c2 = btChar ∧ rest.takeWhile isTokChar ≠ []
        · rw [if_pos hcd] at h
          have hr : r2 = r := congrArg Prod.snd (Option.some.inj h)
          have hsub : (c2 :: r2).Sublist rest := by
            rw [← hd]; exact List.dropWhile_sublist isTokChar
          have hlen := hsub.length_le
          rw [hr] at hlen
          simp only [List.length_cons] at hlen ⊢
          omega
        · rw [if_neg hcd] at h; simp at h
    · rw [if_neg hc] at h; simp at h

/-- A successful match attempt of the router host regex consumes at
least eight characters. -/
theorem tryRouterAt_some_length : ∀ {s tok r : List Char},
    tryRouterAt s = some (tok, r) → r.length < s.length := by
  intro s tok r h
  simp only [tryRouterAt] at h
  by_cases hp : routerOpen.isPrefixOf s = true
  · rw [if_pos hp] at h
    have hslen : 6 ≤ s.length := by
      have := (List.isPrefixOf_iff_prefix.mp hp).length_le
      simpa [routerOpen] using this
    rcases hd : (s.drop 6).dropWhile isTokChar with _ | ⟨c1, l1⟩
    · simp only [hd] at h
      exact Option.noConfusion h
    · rcases l1 with _ | ⟨c2, r2⟩
      · simp only [hd] at h
        exact Option.noConfusion h
      · simp only [hd] at h
        by_cases hcd : c1 = btChar ∧ c2 = ')' ∧ (s.drop 6).takeWhile isTokChar ≠ []
        · rw [if_pos hcd] at h
          have hr : r2 = r := congrArg Prod.snd (Option.some.inj h)
          have hsub : (c1 :: c2 :: r2).Sublist (s.drop 6) := by
            rw [← hd]; exact List.dropWhile_sublist isTokChar
          have hlen := hsub.length_le
          rw [hr] at hlen
          simp only [List.length_cons, List.length_drop] at hlen
          omega
        · rw [if_neg hcd] at h; simp at h
  · rw [if_neg hp] at h; simp at h

/-- A failed prefix test makes the router match attempt fail. -/
theorem tryRouterAt_not_prefixOf {s : List Char}
    (h : ¬ routerOpen.isPrefixOf s = true) : tryRouterAt s = none := by
  simp [tryRouterAt, h]

/-- A match attempt at a character other than the backtick fails. -/
theorem tryV2At_cons_ne {c : Char} {rest : List Char} (hc : c ≠ btChar) :
    tryV2At (c :: rest) = none := by
  simp [tryV2At, hc]

/-- Any fuel at least the input length gives the scanner's value at the
canonical fuel. -/
theorem scanGenF_fuel (tryAt : List Char → Option (List Char × List Char))
    (hlen : ∀ {s tok r : List Char}, tryAt s = some (tok, r) → r.length < s.length) :
    ∀ (fuel : Nat) (s : List Char), s.length ≤ fuel →
      scanGenF tryAt fuel s = scanGenF tryAt s.length s := by
  intro fuel
  induction fuel using Nat.strong_induction_on with
  | _ fuel ih =>
    intro s hs
    cases fuel with
    | zero =>
      have hnil : s = [] := List.length_eq_zero.mp (Nat.le_zero.mp hs)
      subst hnil; rfl
    | succ f =>
      cases s with
      | nil => rfl
      | cons c rest =>
        simp only [List.length_cons] at hs ⊢
        rcases ht : tryAt (c :: rest) with _ | ⟨tok, r⟩
        · simp only [scanGenF, ht]
          rw [ih f (by omega) rest (by omega)]
        · have hr := hlen ht
          simp only [List.length_cons] at hr
          simp only [scanGenF, ht]
          rw [ih f (by omega) r (by omega), ih rest.length (by omega) r (by omega)]

/-- Unfolding of a scanner parse on a successful match attempt. -/
theorem scanGen_some (tryAt : List Char → Option (List Char × List Char))
    (hlen : ∀ {s tok r : List Char}, tryAt s = some (tok, r) → r.length < s.length)
    {s tok r : List Char} (h : tryAt s = some (tok, r)) :
    scanGenF tryAt s.length s = tok :: scanGenF tryAt r.length r := by
  cases s with
  | nil =>
    have := hlen h
    simp at this
  | cons c rest =>
    have hr := hlen h
    simp only [List.length_cons] at hr
    simp only [List.length_cons, scanGenF, h]
    rw [scanGenF_fuel tryAt hlen rest.length r (by omega)]

/-- Unfolding of a scanner parse on a failed match attempt. -/
theorem scanGen_none (tryAt : List Char → Option (List Char × List Char))
    {c : Char} {rest : List Char} (h : tryAt (c :: rest) = none) :
    scanGenF tryAt (c :: rest).length (c :: rest) = scanGenF tryAt rest.length rest := by
  simp only [List.length_cons, scanGenF, h]

/-- `takeWhile` walks through a prefix all of whose elements satisfy the
predicate. -/
theorem takeWhile_append_all {p : Char → Bool} :
    ∀ {l r : List Char}, (∀ c ∈ l, p c = true) →
      (l ++ r).takeWhile p = l ++ r.takeWhile p := by
  intro l r
  induction l with
  | nil => intro _; simp
  | cons c cs ih =>
    intro h
    rw [List.cons_append, List.takeWhile_cons_of_pos (h c (List.mem_cons_self c cs)),
      ih (fun x hx => h x (List.mem_cons_of_mem c hx)), List.cons_append]

/-- `dropWhile` drops a prefix all of whose elements satisfy the
predicate. -/
theorem dropWhile_append_all {p : Char → Bool} :
    ∀ {l r : List Char}, (∀ c ∈ l, p c = true) →
      (l ++ r).dropWhile p = r.dropWhile p := by
  intro l r
  induction l with
  | nil => intro _; simp
  | cons c cs ih =>
    intro h
    rw [List.cons_append, List.dropWhile_cons_of_pos (h c (List.mem_cons_self c cs)),
      ih (fun x hx => h x (List.mem_cons_of_mem c hx))]

/-- The v2 match attempt at the head of a quoted block captures exactly
the block's token. -/
theorem tryV2At_block (tok t : List Char) (hne : tok ≠ [])
    (htok : ∀ c ∈ tok, isTokChar c = true) :
    tryV2At (btChar :: (tok ++ btChar :: t)) = some (tok, t) := by
  simp only [tryV2At, if_pos rfl]
  rw [takeWhile_append_all htok, dropWhile_append_all htok]
  rw [List.takeWhile_cons_of_neg (by simp [isTokChar_bt]),
    List.dropWhile_cons_of_neg (by simp [isTokChar_bt])]
  simp [hne]

/-- The v2 parser emits a quoted block's token and continues after it. -/
theorem parseV2_block (tok t : List Char) (hne : tok ≠ [])
    (htok : ∀ c ∈ tok, isTokChar c = true) :
    parseTraefikV2Rule (btChar :: (tok ++ btChar :: t)) = tok :: parseTraefikV2Rule t := by
  unfold parseTraefikV2Rule
  exact scanGen_some tryV2At (fun h => tryV2At_some_length h) (tryV2At_block tok t hne htok)

/-- Backtick-free separator text in front is skipped by the v2 parser. -/
theorem parseV2_append_sep (sep rest : List Char) (h : btChar ∉ sep) :
    parseTraefikV2Rule (sep ++ rest) = parseTraefikV2Rule rest := by
  induction sep with
  | nil => simp
  | cons c cs ih =>
    have hc : c ≠ btChar := fun he => h (he ▸ List.mem_cons_self c cs)
    have hih := ih (fun hm => h (List.mem_cons_of_mem c hm))
    rw [List.cons_append]
    unfold parseTraefikV2Rule
    rw [scanGen_none tryV2At (tryV2At_cons_ne hc)]
    exact hih

/-- The router match attempt at the head of a host call captures exactly
the call's hostname. -/
theorem tryRouterAt_block (tok t : List Char) (hne : tok ≠ [])
    (htok : ∀ c ∈ tok, isTokChar c = true) :
    tryRouterAt (routerOpen ++ (tok ++ btChar :: ')' :: t)) = some (tok, t) := by
  have hpre : routerOpen.isPrefixOf (routerOpen ++ (tok ++ btChar :: ')' :: t)) = true :=
    List.isPrefixOf_iff_prefix.mpr (List.prefix_append _ _)
  have hdrop : (routerOpen ++ (tok ++ btChar :: ')' :: t)).drop 6 =
      tok ++ btChar :: ')' :: t := by
    simp [routerOpen]
  simp only [tryRouterAt, hpre, if_true]
  rw [hdrop, takeWhile_append_all htok, dropWhile_append_all htok]
  rw [List.takeWhile_cons_of_neg (by simp [isTokChar_bt]),
    List.dropWhile_cons_of_neg (by simp [isTokChar_bt])]
  simp [hne]

/-- The router parser emits a host call's hostname and continues after
the call. -/
theorem parseRouter_block (tok t : List Char) (hne : tok ≠ [])
    (htok : ∀ c ∈ tok, isTokChar c = true) :
    parseTraefikRouterRule (routerOpen ++ (tok ++ btChar :: ')' :: t)) =
      tok :: parseTraefikRouterRule t := by
  unfold parseTraefikRouterRule
  exact scanGen_some tryRouterAt (fun h => tryRouterAt_some_length h)
    (tryRouterAt_block tok t hne htok)

/-- A member of the 6-element window at the junction of two lists lies in
the left part or in the right part's first five elements. -/
theorem mem_take6_append {x : Char} {a b : List Char} (ha : a ≠ [])
    (hx : x ∈ (a ++ b).take 6) : x ∈ a ∨ x ∈ b.take 5 := by
  rw [List.take_append_eq_append_take] at hx
  rcases List.mem_append.mp hx with h | h
  · exact Or.inl (List.take_subset 6 a h)
  · right
    have hlen : 1 ≤ a.length := by
      cases a
      · exact absurd rfl ha
      · simp
    have h65 : 6 - a.length ≤ 5 := by omega
    have : List.take (6 - a.length) b = List.take (6 - a.length) (List.take 5 b) := by
      rw [List.take_take, Nat.min_eq_left h65]
    rw [this] at h
    exact List.take_subset _ _ h

/-- A successful router match attempt needs a backtick among the first
six characters. -/
theorem tryRouterAt_bt_take6 {s : List Char} (h : tryRouterAt s ≠ none) :
    btChar ∈ s.take 6 := by
  by_cases hp : routerOpen.isPrefixOf s = true
  · obtain ⟨t, ht⟩ := List.isPrefixOf_iff_prefix.mp hp
    subst ht
    rw [List.take_append_eq_append_take]
    have : routerOpen.take 6 = routerOpen := List.take_of_length_le (by simp [routerOpen])
    rw [this]
    exact List.mem_append.mpr (Or.inl (by simp [routerOpen]))
  · exact absurd (tryRouterAt_not_prefixOf hp) h

/-- Backtick-free separator text in front of a context whose first five
characters are backtick-free is skipped by the router parser. -/
theorem parseRouter_append_sep (sep rest : List Char) (h : btChar ∉ sep)
    (h5 : btChar ∉ rest.take 5) :
    parseTraefikRouterRule (sep ++ rest) = parseTraefikRouterRule rest := by
  induction sep with
  | nil => simp
  | cons c cs ih =>
    have hih := ih (fun hm => h (List.mem_cons_of_mem c hm))
    have hnone : tryRouterAt (c :: (cs ++ rest)) = none := by
      by_cases htr : tryRouterAt (c :: (cs ++ rest)) = none
      · exact htr
      · exfalso
        have hbt := tryRouterAt_bt_take6 htr
        have : btChar ∈ (c :: cs) ∨ btChar ∈ rest.take 5 := by
          have := mem_take6_append (a := c :: cs) (b := rest) (by simp) (by
            simpa [List.cons_append] using hbt)
          exact this
        rcases this with hm | hm
        · exact h hm
        · exact h5 hm
    rw [List.cons_append]
    unfold parseTraefikRouterRule
    rw [scanGen_none tryRouterAt hnone]
    exact hih

/-- First five characters at a host-call boundary. -/
theorem take5_routerOpen_append (x : List Char) :
    (routerOpen ++ x).take 5 = ['H', 'o', 's', 't', '('] := rfl

/-- Counterexample for C6: `parseTraefikV2Rule` (the modern parser used on
labels) returns the backtick-quoted token of a rule containing no `Host(`
call at all — backtick-quoted tokens are returned whether or not they
follow a `Host(` call; only `parseTraefikRouterRule` restricts itself to
`Host(...)` calls. -/
theorem parseV2_returns_nonHost_tokens :
    parseTraefikV2Rule (("Path(`foo`)").toList) = [("foo").toList] ∧
    parseTraefikRouterRule (("Path(`foo`)").toList) = [] := by
  constructor
  · decide
  · decide

/-- C6 (amended).  For every rule built from `Host(`hostname`)` calls
separated by arbitrary backtick-free predicate text, both modern parsers
return exactly those hostnames in left-to-right order; but
`parseTraefikV2Rule` treats every backtick-quoted token of allowed
characters as a hostname regardless of a preceding `Host(`, so the
"only after Host(" restriction of the claim holds only for
`parseTraefikRouterRule` (see the counterexample). -/
theorem modern_parsers_host_extraction :
    (∀ (seps toks : List (List Char)),
      seps.length = toks.length + 1 →
      (∀ s ∈ seps, btChar ∉ s) →
      (∀ tk ∈ toks, tk ≠ [] ∧ ∀ c ∈ tk, isTokChar c = true) →
      parseTraefikRouterRule (blocksJoin routerBlock seps toks) = toks) ∧
    (∀ (seps toks : List (List Char)),
      seps.length = toks.length + 1 →
      (∀ s ∈ seps, btChar ∉ s) →
      (∀ tk ∈ toks, tk ≠ [] ∧ ∀ c ∈ tk, isTokChar c = true) →
      parseTraefikV2Rule (blocksJoin v2Block seps toks) = toks) := by
  constructor
  · intro seps toks
    induction toks generalizing seps with
    | nil =>
      intro hlen hsep _
      rcases seps with _ | ⟨s0, ss⟩
      · simp at hlen
      · rcases ss with _ | ⟨s1, ss'⟩
        · show parseTraefikRouterRule s0 = []
          have h := parseRouter_append_sep s0 [] (hsep s0 (by simp)) (by simp)
          rw [List.append_nil] at h
          simpa using h
        · simp at hlen
    | cons tk tks ih =>
      intro hlen hsep htk
      rcases seps with _ | ⟨s0, ss⟩
      · simp at hlen
      · have hlen' : ss.length = tks.length + 1 := by simpa using hlen
        have hb : blocksJoin routerBlock (s0 :: ss) (tk :: tks) =
            s0 ++ (routerOpen ++ (tk ++ btChar :: ')' :: blocksJoin routerBlock ss tks)) := by
          simp [blocksJoin, routerBlock, List.append_assoc]
        rw [hb, parseRouter_append_sep s0 _ (hsep s0 (by simp))
          (by rw [take5_routerOpen_append]; decide)]
        rw [parseRouter_block tk _ (htk tk (by simp)).1 (htk tk (by simp)).2]
        rw [ih ss hlen' (fun s hs => hsep s (by simp [hs]))
          (fun x hx => htk x (by simp [hx]))]
  · intro seps toks
    induction toks generalizing seps with
    | nil =>
      intro hlen hsep _
      rcases seps with _ | ⟨s0, ss⟩
      · simp at hlen
      · rcases ss with _ | ⟨s1, ss'⟩
        · show parseTraefikV2Rule s0 = []
          have h := parseV2_append_sep s0 [] (hsep s0 (by simp))
          rw [List.append_nil] at h
          simpa using h
        · simp at hlen
    | cons tk tks ih =>
      intro hlen hsep htk
      rcases seps with _ | ⟨s0, ss⟩
      · simp at hlen
      · have hlen' : ss.length = tks.length + 1 := by simpa using hlen
        have hb : blocksJoin v2Block (s0 :: ss) (tk :: tks) =
            s0 ++ (btChar :: (tk ++ btChar :: blocksJoin v2Block ss tks)) := by
          simp [blocksJoin, v2Block, List.append_assoc]
        rw [hb, parseV2_append_sep s0 _ (hsep s0 (by simp))]
        rw [parseV2_block tk _ (htk tk (by simp)).1 (htk tk (by simp)).2]
        rw [ih ss hlen' (fun s hs => hsep s (by simp [hs]))
          (fun x hx => htk x (by simp [hx]))]

/-- Witness for C6 (amended): two host calls joined by a boolean
operator are parsed to exactly their hostnames, by both parsers. -/
theorem modern_parsers_host_extraction_witness :
    parseTraefikRouterRule
        (blocksJoin routerBlock
          [[], (" && ").toList, []]
          [("a.example.com").toList, ("b.example.com").toList]) =
      [("a.example.com").toList, ("b.example.com").toList] ∧
    parseTraefikV2Rule
        (blocksJoin v2Block
          [[], (" || ").toList, []]
          [("a.example.com").toList, ("b.example.com").toList]) =
      [("a.example.com").toList, ("b.example.com").toList] := by
  constructor
  · exact modern_parsers_host_extraction.1 [[], (" && ").toList, []]
      [("a.example.com").toList, ("b.example.com").toList]
      (by decide) (by decide) (by decide)
  · exact modern_parsers_host_extraction.2 [[], (" || ").toList, []]
      [("a.example.com").toList, ("b.example.com").toList]
      (by decide) (by decide) (by decide)

/-! ## Helper lemmas about the legacy parser -/

/-- A whitespace character is not the comma. -/
theorem space_ne_comma {c : Char} (h : isSpaceChar c = true) : c ≠ ',' := by
  intro he
  subst he
  exact absurd h (by decide)

/-- Trimming starts after a leading space. -/
theorem trim_cons_space {c : Char} (h : isSpaceChar c = true) (l : List Char) :
    trimSpace (c :: l) = trimSpace l := by
  unfold trimSpace dropLeading
  rw [List.dropWhile_cons_of_pos h]

/-- Dropping trailing whitespace removes a final space. -/
theorem dropTrailing_append_space {c : Char} (h : isSpaceChar c = true) (l : List Char) :
    dropTrailing (l ++ [c]) = dropTrailing l := by
  unfold dropTrailing
  rw [List.reverse_append]
  simp only [List.reverse_cons, List.reverse_nil, List.nil_append, List.singleton_append]
  rw [List.dropWhile_cons_of_pos h]

/-- Trimming ignores a trailing space. -/
theorem trim_append_space {c : Char} (h : isSpaceChar c = true) (l : List Char) :
    trimSpace (l ++ [c]) = trimSpace l := by
  unfold trimSpace dropLeading
  rw [List.dropWhile_append]
  by_cases he : (l.dropWhile isSpaceChar).isEmpty = true
  · rw [if_pos he]
    rw [List.dropWhile_cons_of_pos h]
    have : l.dropWhile isSpaceChar = [] := by
      cases hx : l.dropWhile isSpaceChar
      · rfl
      · rw [hx] at he; simp at he
    rw [this]
    rfl
  · rw [if_neg he]
    exact dropTrailing_append_space h _

/-- `splitComma` always yields at least one component. -/
theorem splitComma_exists_cons : ∀ l : List Char, ∃ t ts, splitComma l = t :: ts := by
  intro l
  induction l with
  | nil => exact ⟨[], [], rfl⟩
  | cons c rest ih =>
    by_cases hc : c = ','
    · exact ⟨[], splitComma rest, by simp [splitComma, hc]⟩
    · obtain ⟨t, ts, hts⟩ := ih
      exact ⟨c :: t, ts, by simp [splitComma, hc, hts]⟩

/-- A comma-free prefix extends the first component of the split. -/
theorem splitComma_append_first : ∀ (t l : List Char) (h : List Char)
    (hs : List (List Char)), ',' ∉ t → splitComma l = h :: hs →
      splitComma (t ++ l) = (t ++ h) :: hs := by
  intro t
  induction t with
  | nil => intro l h hs _ hl; simpa using hl
  | cons c cs ih =>
    intro l h hs hc hl
    have hcne : c ≠ ',' := fun he => hc (he ▸ List.mem_cons_self c cs)
    have hcs := ih l h hs (fun hm => hc (List.mem_cons_of_mem c hm)) hl
    simp [splitComma, hcne, hcs]

/-- `splitComma` inverts `joinComma` on comma-free tokens. -/
theorem splitComma_joinComma : ∀ ts : List (List Char),
    (∀ t ∈ ts, ',' ∉ t) → ts ≠ [] → splitComma (joinComma ts) = ts := by
  intro ts
  induction ts with
  | nil => intro _ h; exact absurd rfl h
  | cons t rest ih =>
    intro hts _
    rcases rest with _ | ⟨t2, rest'⟩
    · have h := splitComma_append_first t [] [] [] (hts t (by simp)) rfl
      simpa using h
    · have hrest := ih (fun x hx => hts x (by simp [hx])) (by simp)
      have hsplit : splitComma (',' :: joinComma (t2 :: rest')) = [] :: (t2 :: rest') := by
        simp [splitComma, hrest]
      have h := splitComma_append_first t (',' :: joinComma (t2 :: rest')) []
        (t2 :: rest') (hts t (by simp)) hsplit
      simpa using h

/-- Dropping leading whitespace does not change the trimmed components of
the split. -/
theorem mapTrim_splitComma_dropLeading : ∀ l : List Char,
    (splitComma (dropLeading l)).map trimSpace = (splitComma l).map trimSpace := by
  intro l
  induction l with
  | nil => rfl
  | cons c rest ih =>
    by_cases hc : isSpaceChar c = true
    · have hcne : c ≠ ',' := space_ne_comma hc
      rw [show dropLeading (c :: rest) = dropLeading rest from by
        simp [dropLeading, List.dropWhile_cons_of_pos hc]]
      rw [ih]
      obtain ⟨t, ts, hts⟩ := splitComma_exists_cons rest
      rw [show splitComma (c :: rest) = (c :: t) :: ts from by
        simp [splitComma, hcne, hts]]
      rw [hts]
      simp [trim_cons_space hc]
    · rw [show dropLeading (c :: rest) = c :: rest from by
        simp [dropLeading, List.dropWhile_cons_of_neg hc]]

/-- Appending one non-comma character extends the last component of the
split. -/
theorem splitComma_append_single : ∀ (l : List Char) (c : Char), c ≠ ',' →
    ∃ t ts, splitComma l = ts ++ [t] ∧ splitComma (l ++ [c]) = ts ++ [t ++ [c]] := by
  intro l c hc
  induction l with
  | nil => exact ⟨[], [], by simp [splitComma], by simp [splitComma, hc]⟩
  | cons a l' ih =>
    obtain ⟨t, ts, h1, h2⟩ := ih
    by_cases ha : a = ','
    · exact ⟨t, [] :: ts, by simp [splitComma, ha, h1], by simp [splitComma, ha, h2]⟩
    · rcases ts with _ | ⟨h0, ts'⟩
      · refine ⟨a :: t, [], ?_, ?_⟩
        · simp only [List.nil_append] at h1
          simp [splitComma, ha, h1]
        · simp only [List.nil_append] at h2
          simp [splitComma, ha, h2]
      · refine ⟨t, (a :: h0) :: ts', ?_, ?_⟩
        · simp only [List.cons_append] at h1
          simp [splitComma, ha, h1]
        · simp only [List.cons_append] at h2
          simp [splitComma, ha, h2]

/-- Dropping trailing whitespace does not change the trimmed components
of the split. -/
theorem mapTrim_splitComma_dropTrailing : ∀ l : List Char,
    (splitComma (dropTrailing l)).map trimSpace = (splitComma l).map trimSpace := by
  intro l
  induction l using List.reverseRecOn with
  | nil => rfl
  | append_singleton l' c ih =>
    by_cases hc : isSpaceChar c = true
    · have hcne : c ≠ ',' := space_ne_comma hc
      rw [dropTrailing_append_space hc, ih]
      obtain ⟨t, ts, h1, h2⟩ := splitComma_append_single l' c hcne
      rw [h1, h2]
      simp [trim_append_space hc]
    · rw [show dropTrailing (l' ++ [c]) = l' ++ [c] from by
        unfold dropTrailing
        rw [List.reverse_append]
        simp [List.dropWhile_cons_of_neg hc]]

/-- Trimming the whole remainder before the split does not change the
trimmed components. -/
theorem mapTrim_splitComma_trimSpace (l : List Char) :
    (splitComma (trimSpace l)).map trimSpace = (splitComma l).map trimSpace := by
  rw [show trimSpace l = dropTrailing (dropLeading l) from rfl,
    mapTrim_splitComma_dropTrailing, mapTrim_splitComma_dropLeading]

/-- A rule containing `Host:` contains `Host`. -/
theorem firstIdx_host_of_hostColon : ∀ l : List Char,
    (firstIdx hostColonChars l).isSome = true →
    (firstIdx hostChars l).isSome = true := by
  intro l
  induction l with
  | nil =>
    intro h
    rw [show firstIdx hostColonChars [] = none from rfl] at h
    exact absurd h (by simp)
  | cons c rest ih =>
    intro h
    by_cases hp : hostChars.isPrefixOf (c :: rest) = true
    · simp [firstIdx, hp]
    · have hp2 : ¬ hostColonChars.isPrefixOf (c :: rest) = true := by
        intro hx
        apply hp
        have hpre := List.isPrefixOf_iff_prefix.mp hx
        have hh : hostChars <+: c :: rest :=
          (List.prefix_append hostChars [':']).trans (by
            simpa [show hostChars ++ [':'] = hostColonChars from rfl] using hpre)
        exact List.isPrefixOf_iff_prefix.mpr hh
      simp only [firstIdx, if_neg hp2] at h
      simp only [firstIdx, if_neg hp]
      rcases hrest : firstIdx hostColonChars rest with _ | j
      · rw [hrest] at h; simp at h
      · have hr := ih (by simp [hrest])
        rcases hr2 : firstIdx hostChars rest with _ | k
        · rw [hr2] at hr; simp at hr
        · simp [hr2]

/-- C7.  For every rule whose first `Host:` clause is followed by a
comma-separated token list running to the end of the rule, the legacy
parser returns exactly those tokens in order, each trimmed of
whitespace, with empty tokens dropped; and on every rule in which
`Host:` does not occur it returns the empty result. -/
theorem parseTraefikV1HostRule_spec :
    (∀ (rule : List Char) (ts : List (List Char)) (i : Nat),
      firstIdx hostColonChars rule = some i →
      rule.drop (i + 5) = joinComma ts →
      (∀ t ∈ ts, ',' ∉ t) →
      parseTraefikV1HostRule rule = (ts.map trimSpace).filter (fun t => !t.isEmpty)) ∧
    (∀ rule : List Char, firstIdx hostColonChars rule = none →
      parseTraefikV1HostRule rule = []) := by
  constructor
  · intro rule ts i hidx hdrop hts
    have hsome : (firstIdx hostChars rule).isSome = true :=
      firstIdx_host_of_hostColon rule (by simp [hidx])
    unfold parseTraefikV1HostRule
    rw [if_neg (by simp [hsome])]
    simp only [hidx]
    rw [hdrop]
    rw [show ((splitComma (trimSpace (joinComma ts))).map trimSpace) =
        ((splitComma (joinComma ts)).map trimSpace) from mapTrim_splitComma_trimSpace _]
    rcases ts with _ | ⟨t0, ts'⟩
    · decide
    · rw [splitComma_joinComma (t0 :: ts') hts (by simp)]
  · intro rule hnone
    unfold parseTraefikV1HostRule
    by_cases hh : (firstIdx hostChars rule).isSome = false
    · rw [if_pos hh]
    · rw [if_neg hh]
      simp [hnone]

/-- Witness for C7: `Host:a, b ,,c` yields `["a","b","c"]` (trimmed,
empty token dropped), and a rule without a `Host:` clause yields the
empty result. -/
theorem parseTraefikV1HostRule_spec_witness :
    parseTraefikV1HostRule (("Host:a, b ,,c").toList) =
      [("a").toList, ("b").toList, ("c").toList] ∧
    parseTraefikV1HostRule (("PathPrefix:/x").toList) = [] := by
  constructor
  · have h := parseTraefikV1HostRule_spec.1 (("Host:a, b ,,c").toList)
      [("a").toList, (" b ").toList, ("").toList, ("c").toList] 0
      (by decide) (by decide) (by decide)
    rw [h]
    decide
  · exact parseTraefikV1HostRule_spec.2 (("PathPrefix:/x").toList) (by decide)

/-! ## Claims: parsers -/

/-- C1.  SyncedState monotonicity: for every hostname recorded in
SyncedState at priority `P`, presenting the same hostname at priority
`Q ≥ P` is a no-op — the engine issues no provider call and leaves
SyncedState unchanged — while a strictly lower (more authoritative)
priority `Q < P` triggers full reconciliation of the hostname: exactly
`pointDomain`'s calls are issued and the entry is overwritten on
success. -/
theorem syncedState_priority_monotonic :
    ∀ (cfg : Config) (env : CloudflareEnv) (st : SyncedState) (name : String) (P Q : Int),
      st.lookup name = some P →
      (P ≤ Q → syncOne cfg env st name Q = (st, [])) ∧
      (Q < P → syncOne cfg env st name Q =
        (if (pointDomain cfg env name).1 then (name, Q) :: st else st,
         (pointDomain cfg env name).2)) := by
  intro cfg env st name P Q h
  constructor
  · intro hle
    exact syncOne_lookup_le cfg env st name Q P h hle
  · intro hlt
    rw [syncOne_lookup_gt cfg env st name Q P h hlt]
    rfl

/-- Witness for C1: the hostname `www.example.com` recorded at poller
priority 2 is skipped when proposed again at 2, and fully reconciled
(list + create on the empty zone) when proposed at discovery
priority 1. -/
theorem syncedState_priority_monotonic_witness :
    syncOne baseConfig emptyZoneEnv [(("www.example.com"), 2)] ("www.example.com") 2 =
      ([(("www.example.com"), 2)], []) ∧
    syncOne baseConfig emptyZoneEnv [(("www.example.com"), 2)] ("www.example.com") 1 =
      ([(("www.example.com"), 1), (("www.example.com"), 2)],
       [CFCall.list ("z-example") ("www.example.com"),
        CFCall.create ("z-example")
          (mkRecordRequest baseConfig exampleDomain ("www.example.com"))]) := by
  constructor
  · exact (syncedState_priority_monotonic baseConfig emptyZoneEnv
      [(("www.example.com"), 2)] ("www.example.com") 2 2 (by decide)).1 (by decide)
  · have h := (syncedState_priority_monotonic baseConfig emptyZoneEnv
      [(("www.example.com"), 2)] ("www.example.com") 2 1 (by decide)).2 (by decide)
    rw [h]
    decide

/-- Counterexample for C2: the hostname `foo.org` matches none of the
configured domains, so it is applied to zero domains and no provider
call is made, yet `pointDomain` returns ok and the engine records
`foo.org` in SyncedState — refuting "recorded iff successfully applied
to at least one matching domain". -/
theorem syncOne_zero_domains_recorded :
    baseConfig.Domains.filter (fun d => domainMatches ("foo.org") d) = [] ∧
    (pointDomain baseConfig emptyZoneEnv ("foo.org")).2 = [] ∧
    (syncOne baseConfig emptyZoneEnv [] ("foo.org") 1).1 = [(("foo.org"), 1)] := by
  decide

/-- C2 (amended).  A (hostname, priority) pair that passes the priority
check — the hostname is unrecorded, or recorded only at a strictly
greater (less authoritative) priority — is recorded at the incoming
priority, overwriting any prior entry, iff `pointDomain` reports no
list/create/update failure, regardless of how many domains matched
(zero matching domains also count as success); the issued calls are
exactly `pointDomain`'s; and after any failure the state is unchanged,
so an identical later pass repeats exactly the same reconciliation. -/
theorem syncOne_records_iff_no_failure :
    ∀ (cfg : Config) (env : CloudflareEnv) (st : SyncedState) (name : String) (q : Int),
      (∀ current : Int, st.lookup name = some current → q < current) →
      ((syncOne cfg env st name q).1 =
        (if (pointDomain cfg env name).1 then (name, q) :: st else st)) ∧
      ((syncOne cfg env st name q).2 = (pointDomain cfg env name).2) ∧
      ((pointDomain cfg env name).1 = true →
        ((syncOne cfg env st name q).1).lookup name = some q) ∧
      ((pointDomain cfg env name).1 = false →
        (syncOne cfg env st name q).1 = st ∧
        syncOne cfg env (syncOne cfg env st name q).1 name q =
          syncOne cfg env st name q) := by
  intro cfg env st name q h
  have hstep : syncOne cfg env st name q = syncProceed cfg env st name q := by
    rcases hl : st.lookup name with _ | current
    · exact syncOne_lookup_none cfg env st name q hl
    · exact syncOne_lookup_gt cfg env st name q current hl (h current hl)
  rw [hstep]
  refine ⟨by simp [syncProceed], by simp [syncProceed], ?_, ?_⟩
  · intro hok
    simp [syncProceed, hok, List.lookup]
  · intro hf
    have h1 : (syncProceed cfg env st name q).1 = st := by simp [syncProceed, hf]
    refine ⟨h1, ?_⟩
    rw [h1, hstep]

/-- Witness for C2 (amended): a successful pass on a hostname recorded
at the strictly greater poller priority 2 overwrites the entry with the
incoming priority 1; a pass against the failing provider records
nothing and a retry behaves identically. -/
theorem syncOne_records_iff_no_failure_witness :
    (syncOne baseConfig emptyZoneEnv [(("www.example.com"), 2)]
        ("www.example.com") 1).1 =
      [(("www.example.com"), 1), (("www.example.com"), 2)] ∧
    ((syncOne baseConfig emptyZoneEnv [(("www.example.com"), 2)]
        ("www.example.com") 1).1).lookup ("www.example.com") = some 1 ∧
    (syncOne baseConfig failingZoneEnv [] ("www.example.com") 1).1 = [] ∧
    syncOne baseConfig failingZoneEnv
        (syncOne baseConfig failingZoneEnv [] ("www.example.com") 1).1
        ("www.example.com") 1 =
      syncOne baseConfig failingZoneEnv [] ("www.example.com") 1 := by
  have hover := syncOne_records_iff_no_failure baseConfig emptyZoneEnv
    [(("www.example.com"), 2)] ("www.example.com") 1
    (by intro current hc; simp [List.lookup] at hc; omega)
  have hfail := syncOne_records_iff_no_failure baseConfig failingZoneEnv []
    ("www.example.com") 1
    (by intro current hc; simp [List.lookup] at hc)
  refine ⟨?_, ?_, ?_, ?_⟩
  · rw [hover.1]; decide
  · exact hover.2.2.1 (by decide)
  · exact (hfail.2.2.2 (by decide)).1
  · exact (hfail.2.2.2 (by decide)).2

/-- C5.  The mapping merge keeps, per hostname, the minimum priority seen
across the merged snapshots, and — at the level of lookups, which is
extensional equality of Go maps — it is commutative and idempotent. -/
theorem addToMappings_min_spec :
    (∀ (current incoming : List (String × Int)) (h : String),
      (incoming.map Prod.fst).Nodup →
      (addToMappings current incoming).lookup h =
        minOpt (current.lookup h) (incoming.lookup h)) ∧
    (∀ (a b : List (String × Int)) (h : String),
      (a.map Prod.fst).Nodup → (b.map Prod.fst).Nodup →
      (addToMappings a b).lookup h = (addToMappings b a).lookup h) ∧
    (∀ (m : List (String × Int)) (h : String),
      (m.map Prod.fst).Nodup →
      (addToMappings m m).lookup h = m.lookup h) := by
  refine ⟨?_, ?_, ?_⟩
  · intro current incoming h hnd
    exact addToMappings_lookup incoming current h hnd
  · intro a b h hna hnb
    rw [addToMappings_lookup b a h hnb, addToMappings_lookup a b h hna]
    exact minOpt_comm _ _
  · intro m h hnd
    rw [addToMappings_lookup m m h hnd]
    exact minOpt_idem _

/-- Witness for C5: merging `{h:1}` and `{h:2}` yields `{h:1}` in either
argument order. -/
theorem addToMappings_min_spec_witness :
    (addToMappings [(("h"), (1 : Int))] [(("h"), (2 : Int))]).lookup ("h") = some 1 ∧
    (addToMappings [(("h"), (2 : Int))] [(("h"), (1 : Int))]).lookup ("h") = some 1 := by
  constructor
  · have h := addToMappings_min_spec.1 [(("h"), (1 : Int))] [(("h"), (2 : Int))]
      ("h") (by decide)
    rw [h]; decide
  · have h := addToMappings_min_spec.1 [(("h"), (2 : Int))] [(("h"), (1 : Int))]
      ("h") (by decide)
    rw [h]; decide

/-- Counterexample for C8: with container enumeration failing at startup,
`GetInitialMappings` reports the error, yet the process does not exit —
`main` continues into the steady state with empty initial mappings and
the docker event watcher still started, refuting "fatal to the whole
process". -/
theorem startup_enumeration_not_fatal :
    GetInitialMappings baseConfig failingListEnv = none ∧
    mainFlow (some baseConfig) true true failingListEnv emptyZoneEnv =
      StartupOutcome.running [] false true := by
  exact ⟨rfl, rfl⟩

/-- C8 (amended).  A failed enumeration call aborts only the initial
discovery pass: the process still reaches the running state (with empty
initial mappings) and starts its background tasks; a single entity's
inspection failure is skipped and does not abort the scan. -/
theorem startup_scan_failure_handling :
    (∀ (cfg : Config) (env : DockerEnv) (cf : CloudflareEnv),
      cfg.EnableDockerPoll = true → env.containerList = none →
      mainFlow (some cfg) true true env cf =
        StartupOutcome.running [] cfg.EnableTraefikPoll cfg.EnableDockerPoll) ∧
    (∀ (cfg : Config) (ci : String → Option ContainerDetail)
       (sl : Option (List SwarmService)) (tf : Option (List TraefikRouter × Nat))
       (cid : String) (ids : List String),
      ci cid = none →
      GetInitialMappings cfg
          { containerList := some (cid :: ids), containerInspect := ci,
            serviceList := sl, traefikFetch := tf } =
        GetInitialMappings cfg
          { containerList := some ids, containerInspect := ci,
            serviceList := sl, traefikFetch := tf }) := by
  constructor
  · intro cfg env cf hp hl
    simp [mainFlow, GetInitialMappings, scanContainers, hp, hl, SyncMappings]
  · intro cfg ci sl tf cid ids hci
    by_cases hp : cfg.EnableDockerPoll = true
    · simp [GetInitialMappings, scanContainers, scanServices, hp, hci]
    · simp [GetInitialMappings, scanServices, hp]

/-- Witness for C8 (amended), at the concrete failing and skipping
oracles. -/
theorem startup_scan_failure_handling_witness :
    mainFlow (some baseConfig) true true failingListEnv emptyZoneEnv =
      StartupOutcome.running [] baseConfig.EnableTraefikPoll baseConfig.EnableDockerPoll ∧
    GetInitialMappings baseConfig
        { containerList := some [("c1")], containerInspect := fun _ => none,
          serviceList := some [], traefikFetch := none } =
      GetInitialMappings baseConfig
        { containerList := some [], containerInspect := fun _ => none,
          serviceList := some [], traefikFetch := none } := by
  constructor
  · exact (startup_scan_failure_handling).1 baseConfig failingListEnv emptyZoneEnv rfl rfl
  · exact (startup_scan_failure_handling).2 baseConfig (fun _ => none) (some [])
      none ("c1") [] rfl

/-- Counterexample for C9: the event at timestamp 7 panics during
processing, so it was not processed successfully, yet the cursor is
advanced to 7 — the cursor is written before processing, not after
successful completion; the outcome is identical to the non-panicking
run. -/
theorem watcher_cursor_advances_despite_panic :
    runWatcher 0 [WatchItem.event 7 true] = ([], 7) ∧
    runWatcher 0 [WatchItem.event 7 true] = runWatcher 0 [WatchItem.event 7 false] := by
  exact ⟨rfl, rfl⟩

/-- C9 (amended).  The cursor is advanced to each received event's
timestamp when processing begins, independently of whether processing
succeeds (a panic is recovered and changes nothing in the cursor or
reconnect behaviour), and after a stream error the watcher reconnects
with the last-saved cursor — the timestamp of the last event received
before the error. -/
theorem watcher_cursor_spec :
    (∀ (since : Int) (items : List WatchItem),
      runWatcher since items = runWatcher since (items.map scrubPanic)) ∧
    (∀ (since t : Int) (p : Bool) (evs : List (Int × Bool)) (rest : List WatchItem),
      (runWatcher since
          (evs.map (fun q => WatchItem.event q.1 q.2) ++
            WatchItem.event t p :: WatchItem.streamError :: rest)).1.head? = some t) := by
  constructor
  · intro since items
    induction items generalizing since with
    | nil => rfl
    | cons it rest ih =>
      cases it with
      | event t pn => simp [runWatcher, scrubPanic, ih]
      | streamError => simp [runWatcher, scrubPanic, ih]
      | closed => simp [runWatcher, scrubPanic, ih]
  · intro since t p evs rest
    induction evs generalizing since with
    | nil => simp [runWatcher]
    | cons q evs ih => simpa [runWatcher] using ih q.1

end Gompanion
